import Mathlib

/-!
Verification of the Ledger Reconciliation Engine of a personal-finance
application.  The definitions below are a shallow embedding of the
TypeScript source (`frontend/lib/actions/recurring-transactions.ts` and
`frontend/lib/auth-utils.ts`):

* decimal amount columns (stored as strings and read back with
  `parseFloat`) are modelled as rationals `ℚ`;
* JavaScript `Date` timestamps are modelled as `Int` milliseconds since
  the epoch, with calendar operations (`setHours(23,59,59,999)`,
  `setDate(getDate()-90)`) modelled as UTC millisecond arithmetic;
* database tables are lists of rows; drizzle's `findFirst` is
  `List.find?`, `findMany` is `List.filter`, `orderBy` + `limit` is
  `mergeSort` + `take`;
* `string | null` columns are `Option String`; JavaScript truthiness of
  a string (`if (x)`) is "present and nonempty".
-/

/-- Model of JavaScript `toLowerCase` on one character (ASCII range,
which is all the scorer's comparisons depend on). -/
def lowerChar (c : Char) : Char :=
  if 'A' ≤ c ∧ c ≤ 'Z' then Char.ofNat (c.toNat + 32) else c

/-- Model of JavaScript `String.prototype.trim`: drop leading and
trailing whitespace. -/
def trimChars (s : List Char) : List Char :=
  ((s.dropWhile Char.isWhitespace).reverse.dropWhile Char.isWhitespace).reverse

/-- One inner loop (`for j`) of the `levenshteinDistance` dynamic
program: given the remaining characters of `s1`, the current character
`c2` of `s2`, the tail of the previous matrix row starting at column
`j - 1`, and the value `matrix[i][j-1]` just computed, produce the rest
of row `i`.  `pd` is `matrix[i-1][j-1]`, `prevTail.headD 0` is
`matrix[i-1][j]`, `left` is `matrix[i][j-1]`. -/
def levRowAux : List Char → Char → List ℕ → ℕ → List ℕ
  | [], _, _, _ => []
  | _ :: _, _, [], _ => []
  | c1 :: rest, c2, pd :: prevTail, left =>
    let cur := if c2 = c1 then pd else
      min (pd + 1) (min (left + 1) (prevTail.headD 0 + 1))
    cur :: levRowAux rest c2 prevTail cur

/-- `levenshteinDistance(str1, str2)` from the source: lowercase both
strings, fill the DP matrix row by row (`matrix[i][0] = i`,
`matrix[0][j] = j`, equal characters copy the diagonal, otherwise
`1 + min(diagonal, left, up)`), and return `matrix[s2.length][s1.length]`
— the last entry of the last row. -/
def levenshteinDistance (str1 str2 : List Char) : ℕ :=
  let s1 := str1.map lowerChar
  let s2 := str2.map lowerChar
  let row0 : List ℕ := List.range (s1.length + 1)
  let lastRow := s2.foldl (fun prev c2 =>
    let first := prev.headD 0 + 1
    first :: levRowAux s1 c2 prev first) row0
  lastRow.getLastD 0

/-- `calculateStringSimilarity(str1, str2)` from the source.  The JS
guard `if (!str1 || !str2) return 0` fires exactly on empty strings;
then both strings are lowercased and trimmed, equal strings score 100,
a substring containment either way scores 80, and otherwise the score
is `(maxLength - distance) / maxLength * 100` clamped to `≥ 0`. -/
def calculateStringSimilarity (str1 str2 : String) : ℚ :=
  if str1 = "" ∨ str2 = "" then 0
  else
    let s1 := trimChars (str1.data.map lowerChar)
    let s2 := trimChars (str2.data.map lowerChar)
    if s1 = s2 then 100
    else if s2 <:+: s1 ∨ s1 <:+: s2 then 80
    else
      let distance := levenshteinDistance s1 s2
      let maxLength := max s1.length s2.length
      let similarity := ((maxLength : ℚ) - (distance : ℚ)) / (maxLength : ℚ) * 100
      if 0 ≤ similarity then similarity else 0

/-- The amount term of the matching score in `findPotentialMatches`,
as a function of the absolute amount difference and the tolerance
(`recurringAmount * 0.05` at the call site): `+30` for an exact amount,
`+20` within tolerance, else `+0`. -/
def amountContribution (amountDiff amountTolerance : ℚ) : ℕ :=
  if amountDiff = 0 then 30
  else if amountDiff ≤ amountTolerance then 20
  else 0

/-! ## Data model

Rows of the ledger store, with exactly the columns the verified
operations read or write. -/

/-- A row of the `accounts` table. -/
structure Account where
  id : String
  userId : String
  startingBalance : ℚ
  isActive : Bool
deriving DecidableEq

/-- A row of the `account_balances` table (a balance snapshot). -/
structure AccountBalance where
  accountId : String
  date : Int
  balanceInAccountCurrency : ℚ
deriving DecidableEq

/-- A row of the `transactions` table. -/
structure Transaction where
  id : String
  userId : String
  accountId : String
  amount : ℚ
  currency : String
  description : Option String
  merchant : Option String
  categoryId : Option String
  categorySystemId : Option String
  transactionType : String
  bookedAt : Int
  recurringTransactionId : Option String
deriving DecidableEq

/-- A row of the `recurring_transactions` table. -/
structure RecurringTransaction where
  id : String
  userId : String
  name : String
  merchant : Option String
  amount : ℚ
  categoryId : Option String
  isActive : Bool
deriving DecidableEq

/-- The `link_role` enum of the `transaction_links` table. -/
inductive LinkRole where
  | primary
  | reimbursement
  | expense
deriving DecidableEq

/-- The `linkType` argument of `createTransactionLinkGroup` has the
narrower TypeScript type `"reimbursement" | "expense"`. -/
inductive LinkType where
  | reimbursement
  | expense
deriving DecidableEq

/-- Injection of a link type into the role enum. -/
def LinkType.toRole : LinkType → LinkRole
  | .reimbursement => .reimbursement
  | .expense => .expense

/-- A row of the `transaction_links` table (one group membership). -/
structure LinkRow where
  userId : String
  groupId : String
  transactionId : String
  linkRole : LinkRole
deriving DecidableEq

/-- The ledger store: every table the verified operations touch. -/
structure DB where
  accounts : List Account
  accountBalances : List AccountBalance
  transactions : List Transaction
  recurringTransactions : List RecurringTransaction
  transactionLinks : List LinkRow
deriving DecidableEq

/-! ## Balance reconstructor (`getAccountBalanceOnDate`) -/

/-- Milliseconds per day. -/
def msPerDay : Int := 86400000

/-- Model of `endOfDay.setHours(23, 59, 59, 999)` (UTC): the last
millisecond of the day containing `t`. -/
def endOfDay (t : Int) : Int :=
  msPerDay * (Int.fdiv t msPerDay) + (msPerDay - 1)

/-- The `accountBalances.findFirst` query of `getAccountBalanceOnDate`:
among snapshots of this account dated on or before `date`, the one with
the greatest date (`orderBy desc(date)` then first row). -/
def latestBalanceRecord (rows : List AccountBalance) (accountId : String)
    (date : Int) : Option AccountBalance :=
  (rows.filter (fun b => decide (b.accountId = accountId ∧ b.date ≤ date))).foldl
    (fun best b =>
      match best with
      | none => some b
      | some a => if a.date < b.date then some b else some a)
    none

/-- The replay sum of `getAccountBalanceOnDate`:
`COALESCE(SUM(amount), 0)` over the account's transactions with
`bookedAt <= endOfDay(date)`. -/
def transactionSumOnOrBefore (txs : List Transaction) (accountId : String)
    (eod : Int) : ℚ :=
  ((txs.filter (fun t => decide (t.accountId = accountId ∧ t.bookedAt ≤ eod))).map
    (fun t => t.amount)).sum

/-- The result shape of `getAccountBalanceOnDate`. -/
structure BalanceResult where
  balance : ℚ
  found : Bool
deriving DecidableEq

/-- `getAccountBalanceOnDate(accountId, date)` from the source, for an
authenticated `userId`: verify account ownership; if a snapshot dated on
or before `date` exists return its stored balance directly; otherwise
replay `startingBalance + sum(amounts with bookedAt ≤ endOfDay(date))`. -/
def getAccountBalanceOnDate (db : DB) (userId accountId : String)
    (date : Int) : BalanceResult :=
  match db.accounts.find? (fun a => decide (a.id = accountId ∧ a.userId = userId)) with
  | none => { balance := 0, found := false }
  | some account =>
    match latestBalanceRecord db.accountBalances accountId date with
    | some balanceRecord =>
      { balance := balanceRecord.balanceInAccountCurrency, found := true }
    | none =>
      let startingBalance := account.startingBalance
      let transactionSum :=
        transactionSumOnOrBefore db.transactions accountId (endOfDay date)
      { balance := startingBalance + transactionSum, found := true }

/-! ## Recurring matcher (`findPotentialMatches` and
`linkTransactionToRecurring`) -/

/-- JavaScript truthiness of a `string | null` column: present and
nonempty. -/
def truthy : Option String → Bool
  | none => false
  | some s => !(s == "")

/-- The per-candidate score of the `findPotentialMatches` inner loop:
merchant term (+50 exact / +30 for similarity ≥ 80), amount term
(`amountContribution` of the absolute difference against the 5%
tolerance), category term (+10), and description fallback (+20 for
similarity ≥ 70 when neither side has a merchant). -/
def computeMatchScore (recurring : RecurringTransaction) (transaction : Transaction) : ℕ :=
  let merchantScore :=
    if truthy recurring.merchant && truthy transaction.merchant then
      let merchantSimilarity :=
        calculateStringSimilarity (recurring.merchant.getD "") (transaction.merchant.getD "")
      if merchantSimilarity = 100 then 50
      else if 80 ≤ merchantSimilarity then 30
      else 0
    else 0
  let amountScore :=
    amountContribution (abs (recurring.amount - abs transaction.amount))
      (recurring.amount * (5 / 100))
  let categoryScore :=
    if truthy recurring.categoryId ∧
        (transaction.categoryId = recurring.categoryId ∨
          transaction.categorySystemId = recurring.categoryId) then 10
    else 0
  let descriptionScore :=
    if !truthy recurring.merchant && !truthy transaction.merchant then
      if 70 ≤ calculateStringSimilarity recurring.name (transaction.description.getD "") then 20
      else 0
    else 0
  merchantScore + amountScore + categoryScore + descriptionScore

/-- The match list entry produced by `findPotentialMatches` (the
display-only payload — merchant, booked date, account name, the joined
`matchReason` string — is a projection of the same rows and is omitted
from the model). -/
structure PotentialMatch where
  transactionId : String
  recurringTransactionId : String
  matchScore : ℕ
deriving DecidableEq

/-- `new Date()` minus 90 days, modelled in UTC milliseconds. -/
def ninetyDaysAgo (now : Int) : Int := now - 90 * msPerDay

/-- The `transactions.findMany` query of `findPotentialMatches`: the
user's transactions with a null recurring-definition reference booked in
the trailing 90 days, ordered by `bookedAt` descending, capped at 500
rows. -/
def unlinkedRecentTransactions (db : DB) (userId : String) (now : Int) :
    List Transaction :=
  ((db.transactions.filter (fun t =>
      decide (t.userId = userId ∧ t.recurringTransactionId = none ∧
        ninetyDaysAgo now ≤ t.bookedAt))).mergeSort
    (fun a b => decide (b.bookedAt ≤ a.bookedAt))).take 500

/-- `findPotentialMatches()` from the source, for an authenticated
`userId` at time `now`: score every (active recurring definition,
unlinked recent transaction) pair, keep scores ≥ 50, sort by score
descending, and return the top 50. -/
def findPotentialMatches (db : DB) (userId : String) (now : Int) :
    List PotentialMatch :=
  let activeRecurring := db.recurringTransactions.filter (fun r =>
    decide (r.userId = userId ∧ r.isActive = true))
  if activeRecurring.isEmpty then []
  else
    let unlinkedTransactions := unlinkedRecentTransactions db userId now
    if unlinkedTransactions.isEmpty then []
    else
      let matchList := activeRecurring.flatMap (fun recurring =>
        unlinkedTransactions.filterMap (fun transaction =>
          let matchScore := computeMatchScore recurring transaction
          if 50 ≤ matchScore then
            some { transactionId := transaction.id,
                   recurringTransactionId := recurring.id,
                   matchScore := matchScore }
          else none))
      ((matchList.mergeSort (fun a b => decide (b.matchScore ≤ a.matchScore))).take 50)

/-- The plain success/error result shape shared by the write actions. -/
structure ActionResult where
  success : Bool
  error : Option String
deriving DecidableEq

/-- `linkTransactionToRecurring(transactionId, recurringTransactionId)`
from the source: verify both records belong to the user, then set the
transaction's recurring-definition reference (the update's `where`
clause matches on the transaction id). -/
def linkTransactionToRecurring (db : DB)
    (userId transactionId recurringTransactionId : String) :
    ActionResult × DB :=
  match db.transactions.find? (fun t =>
          decide (t.id = transactionId ∧ t.userId = userId)),
        db.recurringTransactions.find? (fun r =>
          decide (r.id = recurringTransactionId ∧ r.userId = userId)) with
  | none, _ => ({ success := false, error := some "Transaction not found" }, db)
  | some _, none =>
    ({ success := false, error := some "Recurring transaction not found" }, db)
  | some _, some _ =>
    ({ success := true, error := none },
      { db with transactions := db.transactions.map (fun t =>
          if t.id = transactionId then
            { t with recurringTransactionId := some recurringTransactionId }
          else t) })

/-- Applying a batch of proposed matches: one
`linkTransactionToRecurring` call per match, in order. -/
def applyMatches (db : DB) (userId : String) (ms : List PotentialMatch) : DB :=
  ms.foldl (fun d m =>
    (linkTransactionToRecurring d userId m.transactionId m.recurringTransactionId).2) db

/-! ## Transaction link manager -/

/-- The result shape of `createTransactionLinkGroup`. -/
structure CreateGroupResult where
  success : Bool
  error : Option String
  groupId : Option String
deriving DecidableEq

/-- `createTransactionLinkGroup(primaryId, linkedIds, linkType)` from
the source.  `crypto.randomUUID()` is modelled as the oracle argument
`newGroupId`.  Checks, in order: the linked set is nonempty; every
participant is a transaction owned by the user (by comparing the count
of owned rows with ids in the list against the length of the list); no
participant already has a membership row.  On success it appends one
membership row per participant — the primary with role `primary`, the
others with the given link type. -/
def createTransactionLinkGroup (db : DB) (userId primaryId : String)
    (linkedIds : List String) (linkType : LinkType) (newGroupId : String) :
    CreateGroupResult × DB :=
  if linkedIds.length = 0 then
    ({ success := false,
       error := some "At least one linked transaction is required",
       groupId := none }, db)
  else
    let allIds := primaryId :: linkedIds
    let userTransactions := db.transactions.filter (fun t =>
      decide (t.userId = userId ∧ t.id ∈ allIds))
    if userTransactions.length ≠ allIds.length then
      ({ success := false,
         error := some "Some transactions not found or not owned by user",
         groupId := none }, db)
    else
      let existingLinks := db.transactionLinks.filter (fun l =>
        decide (l.transactionId ∈ allIds))
      if 0 < existingLinks.length then
        ({ success := false,
           error := some "One or more transactions are already linked to a group",
           groupId := none }, db)
      else
        let linkValues :=
          { userId := userId, groupId := newGroupId, transactionId := primaryId,
            linkRole := LinkRole.primary } ::
            linkedIds.map (fun txId =>
              { userId := userId, groupId := newGroupId, transactionId := txId,
                linkRole := linkType.toRole })
        ({ success := true, error := none, groupId := some newGroupId },
          { db with transactionLinks := db.transactionLinks ++ linkValues })

/-- The result shape of `removeTransactionFromLinkGroup`. -/
structure RemoveResult where
  success : Bool
  error : Option String
  groupDeleted : Option Bool
deriving DecidableEq

/-- `removeTransactionFromLinkGroup(transactionId)` from the source:
find the transaction's membership row; if its role is `primary` or the
group has at most 2 rows, delete every row of the group
(`groupDeleted = true`); otherwise delete only the rows of this
transaction (`groupDeleted = false`). -/
def removeTransactionFromLinkGroup (db : DB) (userId transactionId : String) :
    RemoveResult × DB :=
  match db.transactionLinks.find? (fun l =>
      decide (l.transactionId = transactionId ∧ l.userId = userId)) with
  | none =>
    ({ success := false, error := some "Transaction is not linked to any group",
       groupDeleted := none }, db)
  | some link =>
    let groupId := link.groupId
    let groupLinks := db.transactionLinks.filter (fun l => decide (l.groupId = groupId))
    if link.linkRole = LinkRole.primary ∨ groupLinks.length ≤ 2 then
      ({ success := true, error := none, groupDeleted := some true },
        { db with transactionLinks :=
            db.transactionLinks.filter (fun l => decide (¬l.groupId = groupId)) })
    else
      ({ success := true, error := none, groupDeleted := some false },
        { db with transactionLinks :=
            db.transactionLinks.filter (fun l => decide (¬l.transactionId = transactionId)) })

/-- A member entry of the reconstructed group view. -/
structure LinkedTransaction where
  id : String
  amount : ℚ
  description : Option String
  merchant : Option String
  bookedAt : Int
  transactionType : String
  linkRole : LinkRole
deriving DecidableEq

/-- The reconstructed group view returned by `getTransactionLinkGroup`. -/
structure TransactionLinkGroup where
  groupId : String
  primary : Option LinkedTransaction
  linked : List LinkedTransaction
  netAmount : ℚ
  currency : Option String
deriving DecidableEq

/-- One iteration's view entry of the `getTransactionLinkGroup` loop:
the member's columns together with its role, looked up in the group's
membership rows (defaulting to `reimbursement` when absent). -/
def toLinkedTransaction (groupLinks : List LinkRow) (txn : Transaction) :
    LinkedTransaction :=
  let role :=
    match groupLinks.find? (fun l => decide (l.transactionId = txn.id)) with
    | some l => l.linkRole
    | none => LinkRole.reimbursement
  { id := txn.id, amount := txn.amount, description := txn.description,
    merchant := txn.merchant, bookedAt := txn.bookedAt,
    transactionType := txn.transactionType, linkRole := role }

/-- `getTransactionLinkGroup(transactionId)` from the source: find the
transaction's membership row, collect the group's rows and their
transactions, and rebuild the view.  The source's single loop is split
into one comprehension per accumulator: `netAmount` adds every member's
amount, `currency` keeps the last member's currency, `primary` keeps the
last member whose role is `primary`, and the remaining members are
sorted by booked date ascending. -/
def getTransactionLinkGroup (db : DB) (userId transactionId : String) :
    Option TransactionLinkGroup :=
  match db.transactionLinks.find? (fun l =>
      decide (l.transactionId = transactionId ∧ l.userId = userId)) with
  | none => none
  | some link =>
    let groupLinks := db.transactionLinks.filter (fun l =>
      decide (l.groupId = link.groupId))
    let txnIds : List String := groupLinks.map (fun l => l.transactionId)
    let linkedTransactions := db.transactions.filter (fun t => decide (t.id ∈ txnIds))
    let members := linkedTransactions.map (toLinkedTransaction groupLinks)
    let netAmount := (linkedTransactions.map (fun t => t.amount)).sum
    let currency := (linkedTransactions.map (fun t => t.currency)).getLast?
    let primaryMember :=
      (members.filter (fun m => decide (m.linkRole = LinkRole.primary))).getLast?
    let linked :=
      (members.filter (fun m => decide (¬m.linkRole = LinkRole.primary))).mergeSort
        (fun a b => decide (a.bookedAt ≤ b.bookedAt))
    some { groupId := link.groupId, primary := primaryMember, linked := linked,
           netAmount := netAmount, currency := currency }

/-! ## Helper lemmas -/

/-- Concrete evaluation of the scorer on `"abc"` vs `"abd"`: one
substitution out of three characters. -/
lemma calculateStringSimilarity_abc_abd :
    calculateStringSimilarity "abc" "abd" = 200 / 3 := by
  have h1 : trimChars ("abc".data.map lowerChar) = "abc".data := by decide
  have h2 : trimChars ("abd".data.map lowerChar) = "abd".data := by decide
  have hd : levenshteinDistance "abc".data "abd".data = 1 := by decide
  simp only [calculateStringSimilarity, h1, h2, hd]
  rw [if_neg (by decide), if_neg (by decide), if_neg (by decide)]
  norm_num

/-- The clamped ratio term of the scorer never exceeds 100. -/
lemma ratio_term_le_100 (M d : ℕ) : ((M : ℚ) - (d : ℚ)) / (M : ℚ) * 100 ≤ 100 := by
  rcases Nat.eq_zero_or_pos M with hM | hM
  · subst hM; norm_num
  · have hM' : (0 : ℚ) < M := by exact_mod_cast hM
    have hd : (0 : ℚ) ≤ (d : ℚ) := Nat.cast_nonneg d
    have hdiv : ((M : ℚ) - (d : ℚ)) / (M : ℚ) ≤ 1 := by
      rw [div_le_one hM']
      linarith
    calc ((M : ℚ) - (d : ℚ)) / (M : ℚ) * 100 ≤ 1 * 100 :=
          mul_le_mul_of_nonneg_right hdiv (by norm_num)
      _ = 100 := by norm_num

/-! ## C4 — `similarity(a, a) = 100` for every string `a` -/

/-- C4 counterexample: the claim quantifies over all strings including
the empty string, but the scorer's falsiness guard returns 0 on the
empty string, so `similarity("", "") = 0 ≠ 100`. -/
theorem similarity_self_empty_counterexample :
    calculateStringSimilarity "" "" = 0 ∧ (0 : ℚ) ≠ 100 := by
  constructor
  · decide
  · norm_num

/-- C4 (amended): for every nonempty string `a`,
`similarity(a, a) = 100`; the empty string instead scores 0 through the
falsiness guard. -/
theorem similarity_self_of_nonempty (a : String) (h : a ≠ "") :
    calculateStringSimilarity a a = 100 := by
  simp only [calculateStringSimilarity]
  rw [if_neg (fun hc => hc.elim h h)]
  simp

/-- Witness for C4's amended theorem at the concrete string `"x"`. -/
theorem similarity_self_of_nonempty_witness :
    "x" ≠ "" ∧ calculateStringSimilarity "x" "x" = 100 :=
  ⟨by decide, similarity_self_of_nonempty "x" (by decide)⟩

/-! ## C5 — `similarity(a, b)` is an integer in `[0, 100]` -/

/-- C5 counterexample: `similarity("abc", "abd") = 200/3 ≈ 66.67`, whose
reduced denominator is not 1, so the scorer does not return an integer. -/
theorem similarity_not_integer_counterexample :
    (calculateStringSimilarity "abc" "abd").den ≠ 1 := by
  rw [calculateStringSimilarity_abc_abd]
  intro h
  have hnum : (((200 : ℚ) / 3).num : ℚ) = (200 : ℚ) / 3 :=
    (Rat.den_eq_one_iff _).mp h
  have h3 : (((200 : ℚ) / 3).num : ℚ) * 3 = 200 := by
    rw [hnum]; norm_num
  have h4 : ((200 : ℚ) / 3).num * 3 = 200 := by exact_mod_cast h3
  omega

/-- C5 (amended): for all strings `a`, `b`, `similarity(a, b)` is a
rational number in `[0, 100]` (not necessarily an integer). -/
theorem similarity_bounds (a b : String) :
    0 ≤ calculateStringSimilarity a b ∧ calculateStringSimilarity a b ≤ 100 := by
  simp only [calculateStringSimilarity]
  split_ifs with h1 h2 h3 h4
  · exact ⟨le_refl 0, by norm_num⟩
  · exact ⟨by norm_num, le_refl 100⟩
  · exact ⟨by norm_num, by norm_num⟩
  · exact ⟨h4, ratio_term_le_100 _ _⟩
  · exact ⟨le_refl 0, by norm_num⟩

/-! ## C6 — strict monotonicity of the amount term beyond tolerance -/

/-- C6 counterexample: with defined amount 10 the tolerance is 0.5, and
the differences 1 < 2 both exceed it, yet the amount contributions are
both 0 — not strictly decreasing. -/
theorem amount_term_not_strictly_decreasing :
    (10 : ℚ) * (5 / 100) < 1 ∧ (1 : ℚ) < 2 ∧
      ¬(amountContribution 2 ((10 : ℚ) * (5 / 100)) <
          amountContribution 1 ((10 : ℚ) * (5 / 100))) := by
  refine ⟨by norm_num, by norm_num, ?_⟩
  norm_num [amountContribution]

/-- C6 (amended): for a nonnegative defined amount, the amount-term
contribution is constantly 0 for every difference beyond the 5%
tolerance — hence non-increasing there, not strictly decreasing. -/
theorem amountContribution_beyond_tolerance (ra d1 d2 : ℚ) (hra : 0 ≤ ra)
    (h1 : ra * (5 / 100) < d1) (h12 : d1 ≤ d2) :
    amountContribution d1 (ra * (5 / 100)) = 0 ∧
      amountContribution d2 (ra * (5 / 100)) = 0 ∧
      amountContribution d2 (ra * (5 / 100)) ≤
        amountContribution d1 (ra * (5 / 100)) := by
  have htol : 0 ≤ ra * (5 / 100) := by positivity
  have hd1 : amountContribution d1 (ra * (5 / 100)) = 0 := by
    unfold amountContribution
    rw [if_neg (by intro h; rw [h] at h1; linarith), if_neg (by linarith)]
  have hd2 : amountContribution d2 (ra * (5 / 100)) = 0 := by
    unfold amountContribution
    rw [if_neg (by intro h; rw [h] at h12; linarith), if_neg (by linarith)]
  exact ⟨hd1, hd2, by rw [hd1, hd2]⟩

/-- Witness for C6's amended theorem: defined amount 10, differences 1
and 2 beyond the 0.5 tolerance. -/
theorem amountContribution_beyond_tolerance_witness :
    (0 : ℚ) ≤ 10 ∧ (10 : ℚ) * (5 / 100) < 1 ∧ (1 : ℚ) ≤ 2 ∧
      amountContribution 1 ((10 : ℚ) * (5 / 100)) = 0 ∧
      amountContribution 2 ((10 : ℚ) * (5 / 100)) = 0 :=
  ⟨by norm_num, by norm_num, by norm_num,
    (amountContribution_beyond_tolerance 10 1 2 (by norm_num) (by norm_num)
      (by norm_num)).1,
    (amountContribution_beyond_tolerance 10 1 2 (by norm_num) (by norm_num)
      (by norm_num)).2.1⟩

/-! ## C9 — replay path of the balance reconstructor -/

/-- C9: for a valid account with no snapshot dated on or before the
query date, `getAccountBalanceOnDate` returns
`startingBalance + sum(amounts with bookedAt ≤ endOfDay(date))` with
`found = true` (never fails), and with no matching transactions it
returns the starting balance unchanged. -/
theorem getAccountBalanceOnDate_replay (db : DB) (uid accId : String)
    (d : Int) (account : Account)
    (hacct : db.accounts.find?
      (fun a => decide (a.id = accId ∧ a.userId = uid)) = some account)
    (hsnap : latestBalanceRecord db.accountBalances accId d = none) :
    getAccountBalanceOnDate db uid accId d =
      { balance := account.startingBalance +
          transactionSumOnOrBefore db.transactions accId (endOfDay d),
        found := true } ∧
    (db.transactions.filter
        (fun t => decide (t.accountId = accId ∧ t.bookedAt ≤ endOfDay d)) = [] →
      (getAccountBalanceOnDate db uid accId d).balance = account.startingBalance) := by
  have hmain : getAccountBalanceOnDate db uid accId d =
      { balance := account.startingBalance +
          transactionSumOnOrBefore db.transactions accId (endOfDay d),
        found := true } := by
    unfold getAccountBalanceOnDate
    rw [hacct, hsnap]
  refine ⟨hmain, fun hempty => ?_⟩
  rw [hmain]
  show account.startingBalance +
      transactionSumOnOrBefore db.transactions accId (endOfDay d) =
    account.startingBalance
  unfold transactionSumOnOrBefore
  rw [hempty]
  simp

/-- Concrete store for the C9 witness: one account, one snapshot-free
history with a single same-day transaction. -/
def dbReplayW : DB :=
  { accounts := [{ id := "A", userId := "u", startingBalance := 5, isActive := true }],
    accountBalances := [],
    transactions := [
      { id := "t1", userId := "u", accountId := "A", amount := 7,
        currency := "EUR", description := none, merchant := none, categoryId := none,
        categorySystemId := none, transactionType := "expense", bookedAt := 50,
        recurringTransactionId := none }],
    recurringTransactions := [], transactionLinks := [] }

/-- Witness for C9 on `dbReplayW`: the replay value is the starting
balance plus the one same-day amount, `5 + 7 = 12`. -/
theorem getAccountBalanceOnDate_replay_witness :
    getAccountBalanceOnDate dbReplayW "u" "A" 100 =
      { balance := (5 : ℚ) +
          transactionSumOnOrBefore dbReplayW.transactions "A" (endOfDay 100),
        found := true } ∧
    transactionSumOnOrBefore dbReplayW.transactions "A" (endOfDay 100) = 7 := by
  constructor
  · exact (getAccountBalanceOnDate_replay dbReplayW "u" "A" 100
      { id := "A", userId := "u", startingBalance := 5, isActive := true }
      (by rfl) (by rfl)).1
  · rw [show endOfDay 100 = 86399999 from by decide]
    norm_num [transactionSumOnOrBefore, dbReplayW]

/-! ## C1 — snapshot path versus replay path -/

/-- Concrete store for the C1 counterexample: starting balance 0, one
transaction of +10 booked on day 1, and a snapshot dated day 0 storing
the balance 0 — the correct replay value *for day 0*. -/
def dbSnapX : DB :=
  { accounts := [{ id := "A", userId := "u", startingBalance := 0, isActive := true }],
    accountBalances := [
      { accountId := "A", date := 0, balanceInAccountCurrency := 0 }],
    transactions := [
      { id := "t1", userId := "u", accountId := "A", amount := 10,
        currency := "EUR", description := none, merchant := none, categoryId := none,
        categorySystemId := none, transactionType := "income", bookedAt := 90000000,
        recurringTransactionId := none }],
    recurringTransactions := [], transactionLinks := [] }

/-- C1 counterexample: querying day 2 (`t = 200000000`), the snapshot
path returns the stored day-0 balance 0, while
`startingBalance + sum(amounts booked on/before day 2)` is 10 — the two
paths disagree, even though the snapshot was correct for its own
as-of-date. -/
theorem balanceOnDate_snapshot_counterexample :
    (getAccountBalanceOnDate dbSnapX "u" "A" 200000000).balance = 0 ∧
    (0 : ℚ) + transactionSumOnOrBefore dbSnapX.transactions "A"
        (endOfDay 200000000) = 10 ∧
    (0 : ℚ) ≠ 10 := by
  refine ⟨?_, ?_, by norm_num⟩
  · have h : getAccountBalanceOnDate dbSnapX "u" "A" 200000000 =
        { balance := 0, found := true } := by
      unfold getAccountBalanceOnDate
      rw [show dbSnapX.accounts.find?
          (fun a => decide (a.id = "A" ∧ a.userId = "u")) =
          some { id := "A", userId := "u", startingBalance := 0, isActive := true }
        from by rfl]
      rw [show latestBalanceRecord dbSnapX.accountBalances "A" 200000000 =
          some { accountId := "A", date := 0, balanceInAccountCurrency := 0 }
        from by rfl]
    rw [h]
  · rw [show endOfDay 200000000 = 259199999 from by decide]
    norm_num [transactionSumOnOrBefore, dbSnapX]

/-- C1 (amended): `balanceOnDate` equals
`startingBalance + sum(amounts booked on/before the date)` whenever the
snapshot path is not taken, or the snapshot it returns happens to store
exactly that replay value; in general the snapshot path returns the
stored balance of the latest snapshot dated on or before the query
date, which can be stale. -/
theorem balanceOnDate_agrees_with_replay (db : DB) (uid accId : String)
    (d : Int) (account : Account)
    (hacct : db.accounts.find?
      (fun a => decide (a.id = accId ∧ a.userId = uid)) = some account)
    (hsnap : ∀ b, latestBalanceRecord db.accountBalances accId d = some b →
      b.balanceInAccountCurrency = account.startingBalance +
        transactionSumOnOrBefore db.transactions accId (endOfDay d)) :
    (getAccountBalanceOnDate db uid accId d).balance =
      account.startingBalance +
        transactionSumOnOrBefore db.transactions accId (endOfDay d) ∧
    (getAccountBalanceOnDate db uid accId d).found = true := by
  unfold getAccountBalanceOnDate
  rw [hacct]
  cases hrec : latestBalanceRecord db.accountBalances accId d with
  | none => exact ⟨rfl, rfl⟩
  | some b => exact ⟨hsnap b hrec, rfl⟩

/-- Concrete store for the C1 witness: the snapshot dated day 2 stores
10, which is exactly the replay value on the queried day 2. -/
def dbSnapW : DB :=
  { accounts := [{ id := "A", userId := "u", startingBalance := 0, isActive := true }],
    accountBalances := [
      { accountId := "A", date := 60, balanceInAccountCurrency := 10 }],
    transactions := [
      { id := "t1", userId := "u", accountId := "A", amount := 10,
        currency := "EUR", description := none, merchant := none, categoryId := none,
        categorySystemId := none, transactionType := "income", bookedAt := 50,
        recurringTransactionId := none }],
    recurringTransactions := [], transactionLinks := [] }

/-- Witness for C1's amended theorem on `dbSnapW`: the snapshot stores
the replay value, so the snapshot path agrees with replay. -/
theorem balanceOnDate_agrees_with_replay_witness :
    (getAccountBalanceOnDate dbSnapW "u" "A" 100).balance =
      (0 : ℚ) + transactionSumOnOrBefore dbSnapW.transactions "A" (endOfDay 100) :=
  (balanceOnDate_agrees_with_replay dbSnapW "u" "A" 100
    { id := "A", userId := "u", startingBalance := 0, isActive := true }
    (by rfl)
    (by
      intro b hb
      rw [show latestBalanceRecord dbSnapW.accountBalances "A" 100 =
          some { accountId := "A", date := 60, balanceInAccountCurrency := 10 }
        from by rfl] at hb
      cases hb
      rw [show endOfDay 100 = 86399999 from by decide]
      norm_num [transactionSumOnOrBefore, dbSnapW])).1

/-! ## C7 / C10 — creating a link group -/

/-- With pairwise-distinct transaction ids in the store, an ownership
filter over a participant list with duplicates returns strictly fewer
rows than the list has entries, so the count check of
`createTransactionLinkGroup` cannot pass. -/
lemma ownership_count_ne_of_dup (txs : List Transaction) (uid : String)
    (ids : List String) (hnd : (txs.map (fun t => t.id)).Nodup)
    (hdup : ¬ids.Nodup) :
    (txs.filter (fun t => decide (t.userId = uid ∧ t.id ∈ ids))).length ≠
      ids.length := by
  intro hlen
  have hsub : List.Sublist
      ((txs.filter (fun t => decide (t.userId = uid ∧ t.id ∈ ids))).map
        (fun t => t.id)) (txs.map (fun t => t.id)) :=
    (List.filter_sublist txs).map _
  have hnd' : ((txs.filter (fun t => decide (t.userId = uid ∧ t.id ∈ ids))).map
      (fun t => t.id)).Nodup := hnd.sublist hsub
  have hsubset : ((txs.filter (fun t => decide (t.userId = uid ∧ t.id ∈ ids))).map
      (fun t => t.id)) ⊆ ids.dedup := by
    intro x hx
    rcases List.mem_map.mp hx with ⟨t, ht, rfl⟩
    have hp := of_decide_eq_true (List.mem_filter.mp ht).2
    exact List.mem_dedup.mpr hp.2
  have h1 : ((txs.filter (fun t => decide (t.userId = uid ∧ t.id ∈ ids))).map
      (fun t => t.id)).length ≤ ids.dedup.length :=
    (hnd'.subperm hsubset).length_le
  have h2 : ids.dedup.length < ids.length := by
    rcases Nat.lt_or_ge ids.dedup.length ids.length with h | h
    · exact h
    · exfalso
      have hlen2 : ids.dedup.length = ids.length :=
        le_antisymm ids.dedup_sublist.length_le h
      exact hdup (List.dedup_eq_self.mp (ids.dedup_sublist.eq_of_length hlen2))
  rw [List.length_map] at h1
  omega

/-- The membership rows inserted by a successful
`createTransactionLinkGroup`: the primary row followed by one row per
linked id. -/
def newLinkRows (uid gid pid : String) (lids : List String) (lt : LinkType) :
    List LinkRow :=
  { userId := uid, groupId := gid, transactionId := pid,
    linkRole := LinkRole.primary } ::
    lids.map (fun txId =>
      { userId := uid, groupId := gid, transactionId := txId,
        linkRole := lt.toRole })

/-- C7: `createTransactionLinkGroup` fails and leaves the store
untouched whenever the linked set is empty or any participant already
has a membership row; when it succeeds it appends exactly one
membership row per participant, exactly one of which has role
`primary`, all carrying the new group id and the calling user. -/
theorem createTransactionLinkGroup_spec (db : DB) (uid pid : String)
    (lids : List String) (lt : LinkType) (gid : String) :
    ((lids = [] ∨ ∃ l ∈ db.transactionLinks, l.transactionId ∈ pid :: lids) →
      (createTransactionLinkGroup db uid pid lids lt gid).1.success = false ∧
      (createTransactionLinkGroup db uid pid lids lt gid).2 = db) ∧
    ((createTransactionLinkGroup db uid pid lids lt gid).1.success = true →
      ∃ rows : List LinkRow,
        (createTransactionLinkGroup db uid pid lids lt gid).2.transactionLinks =
          db.transactionLinks ++ rows ∧
        rows.map (fun r => r.transactionId) = pid :: lids ∧
        (rows.filter (fun r => decide (r.linkRole = LinkRole.primary))).length = 1 ∧
        ∀ r ∈ rows, r.userId = uid ∧ r.groupId = gid) := by
  simp only [createTransactionLinkGroup]
  split_ifs with h1 h2 h3
  · exact ⟨fun _ => ⟨rfl, rfl⟩, fun hs => absurd hs (by simp)⟩
  · exact ⟨fun _ => ⟨rfl, rfl⟩, fun hs => absurd hs (by simp)⟩
  · exact ⟨fun _ => ⟨rfl, rfl⟩, fun hs => absurd hs (by simp)⟩
  · constructor
    · intro hfail
      exfalso
      rcases hfail with hnil | ⟨l, hl, hmem⟩
      · exact h1 (by simp [hnil])
      · have : l ∈ db.transactionLinks.filter
            (fun l => decide (l.transactionId ∈ pid :: lids)) :=
          List.mem_filter.mpr ⟨hl, decide_eq_true hmem⟩
        have hpos : 0 < (db.transactionLinks.filter
            (fun l => decide (l.transactionId ∈ pid :: lids))).length :=
          List.length_pos.mpr (List.ne_nil_of_mem this)
        exact h3 hpos
    · intro _
      refine ⟨newLinkRows uid gid pid lids lt, rfl, ?_, ?_, ?_⟩
      · have hc : ((fun r : LinkRow => r.transactionId) ∘ fun txId =>
            LinkRow.mk uid gid txId lt.toRole) = fun txId => txId := rfl
        simp [newLinkRows, List.map_map, hc]
      · have hrole : lt.toRole ≠ LinkRole.primary := by cases lt <;> decide
        simp [newLinkRows, List.filter_map, Function.comp, hrole]
      · intro r hr
        rcases List.mem_cons.mp hr with rfl | hr
        · exact ⟨rfl, rfl⟩
        · rcases List.mem_map.mp hr with ⟨txId, _, rfl⟩
          exact ⟨rfl, rfl⟩

/-- Concrete store for the C7 witness. -/
def dbLinkW : DB :=
  { accounts := [], accountBalances := [],
    transactions := [
      { id := "p", userId := "u", accountId := "A", amount := -50,
        currency := "EUR", description := none, merchant := none, categoryId := none,
        categorySystemId := none, transactionType := "expense", bookedAt := 10,
        recurringTransactionId := none },
      { id := "a", userId := "u", accountId := "A", amount := 20,
        currency := "EUR", description := none, merchant := none, categoryId := none,
        categorySystemId := none, transactionType := "income", bookedAt := 20,
        recurringTransactionId := none },
      { id := "b", userId := "u", accountId := "A", amount := 10,
        currency := "EUR", description := none, merchant := none, categoryId := none,
        categorySystemId := none, transactionType := "income", bookedAt := 30,
        recurringTransactionId := none }],
    recurringTransactions := [], transactionLinks := [] }

/-- Witness for C7: an empty linked set makes the creation fail. -/
theorem createTransactionLinkGroup_spec_witness :
    (createTransactionLinkGroup dbLinkW "u" "p" [] LinkType.reimbursement "g1").1.success
      = false :=
  ((createTransactionLinkGroup_spec dbLinkW "u" "p" [] LinkType.reimbursement
    "g1").1 (Or.inl rfl)).1

/-- C10: a duplicated participant id (for example the primary repeated
among the linked ids) makes the ownership count check fail, so
`createTransactionLinkGroup` writes nothing. -/
theorem createTransactionLinkGroup_duplicate_ids (db : DB) (uid pid : String)
    (lids : List String) (lt : LinkType) (gid : String)
    (hnd : (db.transactions.map (fun t => t.id)).Nodup)
    (hdup : ¬(pid :: lids).Nodup) :
    (createTransactionLinkGroup db uid pid lids lt gid).1.success = false ∧
    (createTransactionLinkGroup db uid pid lids lt gid).2 = db := by
  simp only [createTransactionLinkGroup]
  split_ifs with h1 h2 h3
  · exact ⟨rfl, rfl⟩
  · exact ⟨rfl, rfl⟩
  · exact absurd (not_not.mp h2) (ownership_count_ne_of_dup db.transactions uid
      (pid :: lids) hnd hdup)
  · exact absurd (not_not.mp h2) (ownership_count_ne_of_dup db.transactions uid
      (pid :: lids) hnd hdup)

/-- Witness for C10: the primary `"p"` repeated in the linked ids. -/
theorem createTransactionLinkGroup_duplicate_ids_witness :
    (createTransactionLinkGroup dbLinkW "u" "p" ["p"] LinkType.reimbursement
      "g1").1.success = false ∧
    (createTransactionLinkGroup dbLinkW "u" "p" ["p"] LinkType.reimbursement
      "g1").2 = dbLinkW :=
  createTransactionLinkGroup_duplicate_ids dbLinkW "u" "p" ["p"]
    LinkType.reimbursement "g1" (by decide) (by decide)

/-! ## C2 — removing a member from a link group -/

/-- C2: for a linked transaction (with the store's at-most-one-row-per-
transaction invariant), removal dissolves the whole group — deleting
every membership row of the group — exactly when the member's role is
`primary` or the group has at most 2 rows (so it would drop below 2),
and afterwards `getTransactionLinkGroup` reports "not linked" for every
former member; otherwise only the removed transaction's row is
deleted. -/
theorem removeTransactionFromLinkGroup_spec (db : DB) (uid tid : String)
    (link : LinkRow)
    (hnd : (db.transactionLinks.map (fun l => l.transactionId)).Nodup)
    (hfind : db.transactionLinks.find?
      (fun l => decide (l.transactionId = tid ∧ l.userId = uid)) = some link) :
    (link.linkRole = LinkRole.primary ∨
        (db.transactionLinks.filter
          (fun l => decide (l.groupId = link.groupId))).length ≤ 2 →
      (removeTransactionFromLinkGroup db uid tid).1 =
        { success := true, error := none, groupDeleted := some true } ∧
      (removeTransactionFromLinkGroup db uid tid).2.transactionLinks =
        db.transactionLinks.filter (fun l => decide (¬l.groupId = link.groupId)) ∧
      ∀ row ∈ db.transactionLinks.filter
          (fun l => decide (l.groupId = link.groupId)),
        ∀ u : String,
          getTransactionLinkGroup (removeTransactionFromLinkGroup db uid tid).2 u
            row.transactionId = none) ∧
    (¬(link.linkRole = LinkRole.primary ∨
        (db.transactionLinks.filter
          (fun l => decide (l.groupId = link.groupId))).length ≤ 2) →
      (removeTransactionFromLinkGroup db uid tid).1 =
        { success := true, error := none, groupDeleted := some false } ∧
      (removeTransactionFromLinkGroup db uid tid).2.transactionLinks =
        db.transactionLinks.filter (fun l => decide (¬l.transactionId = tid))) := by
  constructor
  · intro hcond
    have hstep : removeTransactionFromLinkGroup db uid tid = ({ success := true, error := none, groupDeleted := some true }, { db with transactionLinks := db.transactionLinks.filter (fun l => decide (¬l.groupId = link.groupId)) }) := by
      simp only [removeTransactionFromLinkGroup, hfind]
      rw [if_pos hcond]
    refine ⟨by rw [hstep], by rw [hstep], ?_⟩
    intro row hrow u
    have hrow' := List.mem_filter.mp hrow
    have hrowgid : row.groupId = link.groupId := of_decide_eq_true hrow'.2
    have hfind2 : ((removeTransactionFromLinkGroup db uid tid).2.transactionLinks).find?
        (fun l => decide (l.transactionId = row.transactionId ∧ l.userId = u)) =
        none := by
      rw [hstep]
      apply List.find?_eq_none.mpr
      intro x hx hp
      have hx' := List.mem_filter.mp hx
      have hxgid : ¬x.groupId = link.groupId := of_decide_eq_true hx'.2
      have hp' := of_decide_eq_true hp
      have hxr : x = row :=
        List.inj_on_of_nodup_map hnd hx'.1 hrow'.1 hp'.1
      exact hxgid (hxr ▸ hrowgid)
    simp only [getTransactionLinkGroup, hfind2]
  · intro hcond
    have hstep : removeTransactionFromLinkGroup db uid tid = ({ success := true, error := none, groupDeleted := some false }, { db with transactionLinks := db.transactionLinks.filter (fun l => decide (¬l.transactionId = tid)) }) := by
      simp only [removeTransactionFromLinkGroup, hfind]
      rw [if_neg hcond]
    exact ⟨by rw [hstep], by rw [hstep]⟩

/-- Concrete store for the C2 witness: a 2-member group whose primary is
removed, dissolving the group. -/
def dbRemW : DB :=
  { accounts := [], accountBalances := [], transactions := [],
    recurringTransactions := [],
    transactionLinks := [
      { userId := "u", groupId := "g", transactionId := "p",
        linkRole := LinkRole.primary },
      { userId := "u", groupId := "g", transactionId := "a",
        linkRole := LinkRole.reimbursement }] }

/-- Witness for C2 on `dbRemW`: removing the primary dissolves the
group and the former member `"a"` reads as not linked. -/
theorem removeTransactionFromLinkGroup_spec_witness :
    (removeTransactionFromLinkGroup dbRemW "u" "p").1 =
      { success := true, error := none, groupDeleted := some true } ∧
    getTransactionLinkGroup (removeTransactionFromLinkGroup dbRemW "u" "p").2 "u" "a"
      = none := by
  have h := (removeTransactionFromLinkGroup_spec dbRemW "u" "p"
    { userId := "u", groupId := "g", transactionId := "p",
      linkRole := LinkRole.primary } (by decide) (by rfl)).1 (Or.inl rfl)
  refine ⟨h.1, ?_⟩
  have := h.2.2
    { userId := "u", groupId := "g", transactionId := "a",
      linkRole := LinkRole.reimbursement } (by decide) "u"
  exact this

/-! ## C8 — reading a group after creation -/

/-- The signed amount of the transaction with a given id (0 when
absent). -/
def txAmount (txs : List Transaction) (i : String) : ℚ :=
  match txs.find? (fun t => decide (t.id = i)) with
  | some t => t.amount
  | none => 0

/-- With pairwise-distinct ids, summing the amounts of the rows whose id
equals `i` gives exactly `txAmount`. -/
lemma sum_filter_eq_key (txs : List Transaction)
    (hnd : (txs.map (fun t => t.id)).Nodup) (i : String) :
    ((txs.filter (fun t => decide (t.id = i))).map (fun t => t.amount)).sum =
      txAmount txs i := by
  induction txs with
  | nil => simp [txAmount]
  | cons t rest ih =>
    have hnd' := hnd
    rw [List.map_cons, List.nodup_cons] at hnd'
    by_cases h : t.id = i
    · have hmiss : rest.filter (fun t => decide (t.id = i)) = [] := by
        apply List.filter_eq_nil_iff.mpr
        intro x hx hp
        have hx' : x.id = i := of_decide_eq_true hp
        apply hnd'.1
        rw [h, ← hx']
        exact List.mem_map_of_mem (fun t => t.id) hx
      rw [List.filter_cons, if_pos (by simp [h]), hmiss]
      have hfind : List.find? (fun t => decide (t.id = i)) (t :: rest) = some t :=
        @List.find?_cons_of_pos _ (fun t => decide (t.id = i)) t rest (decide_eq_true h)
      simp only [txAmount, hfind, List.map_cons, List.map_nil, List.sum_cons,
        List.sum_nil, add_zero]
    · have hfind : List.find? (fun t => decide (t.id = i)) (t :: rest) =
          List.find? (fun t => decide (t.id = i)) rest :=
        @List.find?_cons_of_neg _ (fun t => decide (t.id = i)) t rest (by simp [h])
      rw [List.filter_cons, if_neg (by simp [h])]
      have hstep : txAmount (t :: rest) i = txAmount rest i := by
        simp only [txAmount, hfind]
      rw [hstep]
      exact ih hnd'.2

/-- Splitting a sum over a filter by a disjunction of disjoint
predicates. -/
lemma sum_map_filter_or (txs : List Transaction) (p q : Transaction → Bool)
    (hdisj : ∀ t ∈ txs, ¬(p t = true ∧ q t = true)) :
    ((txs.filter (fun t => p t || q t)).map (fun t => t.amount)).sum =
      ((txs.filter p).map (fun t => t.amount)).sum +
        ((txs.filter q).map (fun t => t.amount)).sum := by
  induction txs with
  | nil => simp
  | cons t rest ih =>
    have hd := hdisj t (List.mem_cons_self t rest)
    have hrest := fun x hx => hdisj x (List.mem_cons_of_mem t hx)
    cases hp : p t <;> cases hq : q t
    · simp only [List.filter_cons, hp, hq, Bool.or_self]
      simpa using ih hrest
    · simp [List.filter_cons, hp, hq, ih hrest]
      ring
    · simp [List.filter_cons, hp, hq, ih hrest]
      ring
    · exact absurd ⟨hp, hq⟩ hd

/-- With pairwise-distinct transaction ids and pairwise-distinct member
ids, the sum of the amounts of the rows whose id occurs in `ids` is the
sum over `ids` of each member's amount. -/
lemma sum_filter_mem_ids (txs : List Transaction)
    (hnd : (txs.map (fun t => t.id)).Nodup) (ids : List String)
    (hids : ids.Nodup) :
    ((txs.filter (fun t => decide (t.id ∈ ids))).map (fun t => t.amount)).sum =
      (ids.map (txAmount txs)).sum := by
  induction ids with
  | nil => simp
  | cons i rest ih =>
    have hids' := List.nodup_cons.mp hids
    have hdisj : ∀ t ∈ txs,
        ¬((decide (t.id = i)) = true ∧ (decide (t.id ∈ rest)) = true) := by
      intro t _ hc
      exact hids'.1 ((of_decide_eq_true hc.1) ▸ of_decide_eq_true hc.2)
    have hpred : (fun t : Transaction => decide (t.id ∈ i :: rest)) =
        (fun t => decide (t.id = i) || decide (t.id ∈ rest)) := by
      funext t
      by_cases h : t.id = i <;> by_cases h2 : t.id ∈ rest <;> simp [h, h2]
    rw [hpred, sum_map_filter_or txs _ _ hdisj, sum_filter_eq_key txs hnd i,
      List.map_cons, List.sum_cons, ih hids'.2]

/-- C8: after a successful group creation (fresh group id, distinct
transaction ids in the store), `getTransactionLinkGroup` on any member
returns a view carrying the new group id, and its net amount is the sum
of every member's signed amount. -/
theorem getTransactionLinkGroup_after_create (db : DB) (uid pid : String)
    (lids : List String) (lt : LinkType) (gid : String)
    (hnd : (db.transactions.map (fun t => t.id)).Nodup)
    (hfresh : ∀ l ∈ db.transactionLinks, l.groupId ≠ gid)
    (hsucc : (createTransactionLinkGroup db uid pid lids lt gid).1.success = true) :
    ∀ m ∈ pid :: lids, ∃ view : TransactionLinkGroup,
      getTransactionLinkGroup
          (createTransactionLinkGroup db uid pid lids lt gid).2 uid m = some view ∧
      view.groupId = gid ∧
      view.netAmount = ((pid :: lids).map (txAmount db.transactions)).sum := by
  have hbranch : ¬lids.length = 0 ∧
      ¬(db.transactions.filter
          (fun t => decide (t.userId = uid ∧ t.id ∈ pid :: lids))).length ≠
        (pid :: lids).length ∧
      ¬0 < (db.transactionLinks.filter
          (fun l => decide (l.transactionId ∈ pid :: lids))).length := by
    revert hsucc
    simp only [createTransactionLinkGroup]
    split_ifs with h1 h2 h3 <;> intro hsucc
    · exact absurd hsucc (by simp)
    · exact absurd hsucc (by simp)
    · exact absurd hsucc (by simp)
    · exact ⟨h1, h2, h3⟩
  obtain ⟨h1, h2, h3⟩ := hbranch
  have hdb2 : (createTransactionLinkGroup db uid pid lids lt gid).2 = { db with transactionLinks := db.transactionLinks ++ newLinkRows uid gid pid lids lt } := by
    simp only [createTransactionLinkGroup]
    rw [if_neg h1, if_neg h2, if_neg h3]
    rfl
  have hlinks2 : (createTransactionLinkGroup db uid pid lids lt gid).2.transactionLinks =
      db.transactionLinks ++ newLinkRows uid gid pid lids lt := by rw [hdb2]
  have htx2 : (createTransactionLinkGroup db uid pid lids lt gid).2.transactions =
      db.transactions := by rw [hdb2]
  have hnodupIds : (pid :: lids).Nodup := by
    by_contra hdup
    exact ownership_count_ne_of_dup db.transactions uid (pid :: lids) hnd hdup
      (not_not.mp h2)
  have hnolinks : ∀ l ∈ db.transactionLinks, l.transactionId ∉ pid :: lids := by
    intro l hl hm
    have h0 : (db.transactionLinks.filter
        (fun l => decide (l.transactionId ∈ pid :: lids))) = [] :=
      List.length_eq_zero.mp (Nat.eq_zero_of_not_pos h3)
    exact List.filter_eq_nil_iff.mp h0 l hl (decide_eq_true hm)
  have hrows : ∀ r ∈ newLinkRows uid gid pid lids lt,
      r.groupId = gid ∧ r.userId = uid := by
    intro r hr
    rcases List.mem_cons.mp hr with rfl | hr
    · exact ⟨rfl, rfl⟩
    · rcases List.mem_map.mp hr with ⟨x, _, rfl⟩
      exact ⟨rfl, rfl⟩
  have htids : (newLinkRows uid gid pid lids lt).map (fun r => r.transactionId) =
      pid :: lids := by
    have hc : ((fun r : LinkRow => r.transactionId) ∘ fun txId =>
        LinkRow.mk uid gid txId lt.toRole) = fun txId => txId := rfl
    simp [newLinkRows, List.map_map, hc]
  intro m hm
  have hfindold : db.transactionLinks.find?
      (fun l => decide (l.transactionId = m ∧ l.userId = uid)) = none := by
    apply List.find?_eq_none.mpr
    intro x hx hp
    exact hnolinks x hx ((of_decide_eq_true hp).1 ▸ hm)
  have hfindnew : ∃ x ∈ newLinkRows uid gid pid lids lt,
      (fun l : LinkRow => decide (l.transactionId = m ∧ l.userId = uid)) x = true := by
    rcases List.mem_cons.mp hm with rfl | hm'
    · exact ⟨_, List.mem_cons_self _ _, decide_eq_true ⟨rfl, rfl⟩⟩
    · exact ⟨LinkRow.mk uid gid m lt.toRole,
        List.mem_cons_of_mem _ (List.mem_map.mpr ⟨m, hm', rfl⟩),
        decide_eq_true ⟨rfl, rfl⟩⟩
  obtain ⟨r, hrfind⟩ : ∃ r, (newLinkRows uid gid pid lids lt).find?
      (fun l => decide (l.transactionId = m ∧ l.userId = uid)) = some r :=
    Option.isSome_iff_exists.mp (List.find?_isSome.mpr hfindnew)
  have hrmem := List.mem_of_find?_eq_some hrfind
  have hrgid := (hrows r hrmem).1
  have hfindapp : (db.transactionLinks ++ newLinkRows uid gid pid lids lt).find?
      (fun l => decide (l.transactionId = m ∧ l.userId = uid)) = some r := by
    rw [List.find?_append, hfindold, hrfind]
    rfl
  have hgl : (db.transactionLinks ++ newLinkRows uid gid pid lids lt).filter
      (fun l => decide (l.groupId = r.groupId)) = newLinkRows uid gid pid lids lt := by
    rw [List.filter_append]
    have hnil : db.transactionLinks.filter
        (fun l => decide (l.groupId = r.groupId)) = [] := by
      apply List.filter_eq_nil_iff.mpr
      intro l hl hp
      exact hfresh l hl ((of_decide_eq_true hp).trans hrgid)
    have hall : (newLinkRows uid gid pid lids lt).filter
        (fun l => decide (l.groupId = r.groupId)) = newLinkRows uid gid pid lids lt :=
      List.filter_eq_self.mpr fun a ha =>
        decide_eq_true ((hrows a ha).1.trans hrgid.symm)
    rw [hnil, hall, List.nil_append]
  simp only [getTransactionLinkGroup, hlinks2, htx2, hfindapp, hgl, htids]
  refine ⟨_, rfl, hrgid, ?_⟩
  exact sum_filter_mem_ids db.transactions hnd (pid :: lids) hnodupIds

/-- Witness for C8 on `dbLinkW`: create a group from primary `"p"`
(−50) with reimbursements `"a"` (+20) and `"b"` (+10), then read it
through member `"a"`. -/
theorem getTransactionLinkGroup_after_create_witness :
    ∃ view : TransactionLinkGroup,
      getTransactionLinkGroup
          (createTransactionLinkGroup dbLinkW "u" "p" ["a", "b"]
            LinkType.reimbursement "g1").2 "u" "a" = some view ∧
      view.groupId = "g1" ∧
      view.netAmount = (("p" :: ["a", "b"]).map (txAmount dbLinkW.transactions)).sum :=
  getTransactionLinkGroup_after_create dbLinkW "u" "p" ["a", "b"]
    LinkType.reimbursement "g1" (by decide) (by intro l hl; cases hl) (by decide)
    "a" (by decide)

/-! ## C3 — the ongoing matcher's window, cap, and idempotence -/

/-- Every candidate returned by the 90-day query is a stored transaction
of the user with a null recurring-definition reference booked within the
window. -/
lemma mem_unlinkedRecent (db : DB) (uid : String) (now : Int)
    (t : Transaction) (ht : t ∈ unlinkedRecentTransactions db uid now) :
    t ∈ db.transactions ∧ t.userId = uid ∧ t.recurringTransactionId = none ∧
      ninetyDaysAgo now ≤ t.bookedAt := by
  unfold unlinkedRecentTransactions at ht
  have ht2 := List.take_subset _ _ ht
  have ht3 := (List.mergeSort_perm _ _).mem_iff.mp ht2
  have ht4 := List.mem_filter.mp ht3
  have hp := of_decide_eq_true ht4.2
  exact ⟨ht4.1, hp.1, hp.2.1, hp.2.2⟩

/-- Every proposed match refers to a candidate transaction from the
90-day query and to one of the user's active recurring definitions. -/
lemma mem_findPotentialMatches (db : DB) (uid : String) (now : Int)
    (m : PotentialMatch) (hm : m ∈ findPotentialMatches db uid now) :
    (∃ t ∈ unlinkedRecentTransactions db uid now, t.id = m.transactionId) ∧
    (∃ r ∈ db.recurringTransactions, r.id = m.recurringTransactionId ∧
      r.userId = uid ∧ r.isActive = true) := by
  simp only [findPotentialMatches] at hm
  split_ifs at hm with h1 h2
  · cases hm
  · cases hm
  · have hm2 := List.take_subset _ _ hm
    have hm3 := (List.mergeSort_perm _ _).mem_iff.mp hm2
    rcases List.mem_flatMap.mp hm3 with ⟨r, hr, hmr⟩
    rcases List.mem_filterMap.mp hmr with ⟨t, ht, hsome⟩
    have hrf := List.mem_filter.mp hr
    have hrp := of_decide_eq_true hrf.2
    by_cases hscore : 50 ≤ computeMatchScore r t
    · rw [if_pos hscore] at hsome
      cases hsome
      exact ⟨⟨t, ht, rfl⟩, ⟨r, hrf.1, rfl, hrp.1, hrp.2⟩⟩
    · rw [if_neg hscore] at hsome
      cases hsome

/-- "All rows with this id carry a recurring-definition reference". -/
def LinkedTx (db : DB) (tid : String) : Prop :=
  ∀ t ∈ db.transactions, t.id = tid → t.recurringTransactionId.isSome = true

/-- `linkTransactionToRecurring` either leaves the transactions table
unchanged or maps the update over it. -/
lemma link_tx_shape (db : DB) (uid tid rid : String) :
    (linkTransactionToRecurring db uid tid rid).2.transactions = db.transactions ∨
    (linkTransactionToRecurring db uid tid rid).2.transactions =
      db.transactions.map (fun t => if t.id = tid then
        { t with recurringTransactionId := some rid } else t) := by
  unfold linkTransactionToRecurring
  split
  · left; rfl
  · left; rfl
  · right; rfl

/-- `linkTransactionToRecurring` never touches the recurring-definition
table. -/
lemma link_tx_recurring (db : DB) (uid tid rid : String) :
    (linkTransactionToRecurring db uid tid rid).2.recurringTransactions =
      db.recurringTransactions := by
  unfold linkTransactionToRecurring
  split
  · rfl
  · rfl
  · rfl

/-- A linked id stays linked across any later
`linkTransactionToRecurring` call — the update only ever writes a
non-null reference. -/
lemma linked_preserved (db : DB) (uid tid rid x : String)
    (h : LinkedTx db x) : LinkedTx (linkTransactionToRecurring db uid tid rid).2 x := by
  rcases link_tx_shape db uid tid rid with he | he <;> intro t ht htid
  · rw [he] at ht
    exact h t ht htid
  · rw [he] at ht
    rcases List.mem_map.mp ht with ⟨t0, ht0, rfl⟩
    by_cases hid : t0.id = tid
    · simp [hid]
    · simp only [if_neg hid] at htid ⊢
      exact h t0 ht0 htid

/-- The update preserves which (id, user) pairs are present. -/
lemma link_tx_presence (db : DB) (uid tid rid x : String)
    (h : ∃ t ∈ db.transactions, t.id = x ∧ t.userId = uid) :
    ∃ t ∈ (linkTransactionToRecurring db uid tid rid).2.transactions,
      t.id = x ∧ t.userId = uid := by
  rcases link_tx_shape db uid tid rid with he | he <;> rw [he]
  · exact h
  · rcases h with ⟨t, ht, hid, huid⟩
    refine ⟨if t.id = tid then { t with recurringTransactionId := some rid } else t,
      List.mem_map_of_mem _ ht, ?_, ?_⟩
    · by_cases h2 : t.id = tid
      · rw [if_pos h2]; exact hid
      · rw [if_neg h2]; exact hid
    · by_cases h2 : t.id = tid
      · rw [if_pos h2]; exact huid
      · rw [if_neg h2]; exact huid

/-- When both ownership lookups succeed, the call links every row with
the given transaction id. -/
lemma link_tx_sets (db : DB) (uid tid rid : String)
    (htx : ∃ t ∈ db.transactions, t.id = tid ∧ t.userId = uid)
    (hrec : ∃ r ∈ db.recurringTransactions, r.id = rid ∧ r.userId = uid) :
    LinkedTx (linkTransactionToRecurring db uid tid rid).2 tid := by
  have h1 : (db.transactions.find?
      (fun t => decide (t.id = tid ∧ t.userId = uid))).isSome = true := by
    rcases htx with ⟨t, ht, h⟩
    exact List.find?_isSome.mpr ⟨t, ht, decide_eq_true ⟨h.1, h.2⟩⟩
  have h2 : (db.recurringTransactions.find?
      (fun r => decide (r.id = rid ∧ r.userId = uid))).isSome = true := by
    rcases hrec with ⟨r, hr, h⟩
    exact List.find?_isSome.mpr ⟨r, hr, decide_eq_true ⟨h.1, h.2⟩⟩
  obtain ⟨t0, ht0⟩ := Option.isSome_iff_exists.mp h1
  obtain ⟨r0, hr0⟩ := Option.isSome_iff_exists.mp h2
  intro t ht htid
  rw [show (linkTransactionToRecurring db uid tid rid).2.transactions =
      db.transactions.map (fun t => if t.id = tid then
        { t with recurringTransactionId := some rid } else t) from by
    unfold linkTransactionToRecurring
    rw [ht0, hr0]] at ht
  rcases List.mem_map.mp ht with ⟨t1, ht1, rfl⟩
  by_cases hid : t1.id = tid
  · simp [hid]
  · simp only [if_neg hid] at htid ⊢
    exact absurd htid hid

/-- A linked id stays linked across a whole batch of link calls. -/
lemma applyMatches_preserves_linked (db : DB) (uid : String)
    (ms : List PotentialMatch) (x : String) (h : LinkedTx db x) :
    LinkedTx (applyMatches db uid ms) x := by
  induction ms generalizing db with
  | nil => exact h
  | cons m rest ih =>
    exact ih (linkTransactionToRecurring db uid m.transactionId
      m.recurringTransactionId).2 (linked_preserved db uid m.transactionId
        m.recurringTransactionId x h)

/-- After applying a batch of matches whose transactions and recurring
definitions are present for the user, every matched transaction id is
linked. -/
lemma applyMatches_links (db : DB) (uid : String) (ms : List PotentialMatch)
    (hms : ∀ m ∈ ms,
      (∃ t ∈ db.transactions, t.id = m.transactionId ∧ t.userId = uid) ∧
      (∃ r ∈ db.recurringTransactions, r.id = m.recurringTransactionId ∧
        r.userId = uid)) :
    ∀ m ∈ ms, LinkedTx (applyMatches db uid ms) m.transactionId := by
  induction ms generalizing db with
  | nil => intro m hm; cases hm
  | cons m0 rest ih =>
    intro m hm
    have hms0 := hms m0 (List.mem_cons_self m0 rest)
    rcases List.mem_cons.mp hm with rfl | hm'
    · exact applyMatches_preserves_linked _ uid rest m.transactionId
        (link_tx_sets db uid m.transactionId m.recurringTransactionId
          hms0.1 hms0.2)
    · refine ih (linkTransactionToRecurring db uid m0.transactionId
        m0.recurringTransactionId).2 ?_ m hm'
      intro m' hm''
      have hprev := hms m' (List.mem_cons_of_mem m0 hm'')
      refine ⟨link_tx_presence db uid m0.transactionId m0.recurringTransactionId
        m'.transactionId hprev.1, ?_⟩
      rw [link_tx_recurring]
      exact hprev.2

/-- C3: the candidate pool of `findPotentialMatches` holds at most 500
transactions; every proposed match refers to a candidate with a null
recurring-definition reference booked within the trailing 90 days; and
after applying all proposed matches, a re-run proposes none of the
previously matched transactions again. -/
theorem findPotentialMatches_spec (db : DB) (uid : String) (now : Int) :
    (unlinkedRecentTransactions db uid now).length ≤ 500 ∧
    (∀ m ∈ findPotentialMatches db uid now,
      ∃ t ∈ unlinkedRecentTransactions db uid now,
        t.id = m.transactionId ∧ t.userId = uid ∧
        t.recurringTransactionId = none ∧ ninetyDaysAgo now ≤ t.bookedAt) ∧
    (∀ m' ∈ findPotentialMatches
        (applyMatches db uid (findPotentialMatches db uid now)) uid now,
      m'.transactionId ∉ (findPotentialMatches db uid now).map
        (fun m => m.transactionId)) := by
  refine ⟨List.length_take_le _ _, ?_, ?_⟩
  · intro m hm
    rcases (mem_findPotentialMatches db uid now m hm).1 with ⟨t, ht, htid⟩
    have hp := mem_unlinkedRecent db uid now t ht
    exact ⟨t, ht, htid, hp.2.1, hp.2.2.1, hp.2.2.2⟩
  · intro m' hm' hmem
    rcases List.mem_map.mp hmem with ⟨m1, hm1, htid⟩
    have hprops : ∀ m ∈ findPotentialMatches db uid now,
        (∃ t ∈ db.transactions, t.id = m.transactionId ∧ t.userId = uid) ∧
        (∃ r ∈ db.recurringTransactions, r.id = m.recurringTransactionId ∧
          r.userId = uid) := by
      intro m hm
      obtain ⟨⟨t, ht, htid0⟩, ⟨r, hr, hrid, hruid, _⟩⟩ :=
        mem_findPotentialMatches db uid now m hm
      have hp := mem_unlinkedRecent db uid now t ht
      exact ⟨⟨t, hp.1, htid0, hp.2.1⟩, ⟨r, hr, hrid, hruid⟩⟩
    have hlink := applyMatches_links db uid (findPotentialMatches db uid now)
      hprops m1 hm1
    obtain ⟨⟨t', ht', htid'⟩, _⟩ := mem_findPotentialMatches _ uid now m' hm'
    have hp' := mem_unlinkedRecent _ uid now t' ht'
    have hsome := hlink t' hp'.1 (htid'.trans htid.symm)
    rw [hp'.2.2.1] at hsome
    simp at hsome
